import Mathlib

/-!
Shallow embedding of the Spend_Sight expense tracker's core logic:
the analytics aggregation in `src/server/storage.ts` (`MongoStorage.getExpenseStats`,
`createExpense`, `createBudget`, `updateExpense`, `deleteExpense`) and the pure
analyzer / response-shaping parts of `src/server/openai.ts` (`generateInsights`,
`categorizeExpense`).

Amounts are modelled as exact rationals (ℚ); dates and identifiers as strings,
compared lexicographically exactly as the MongoDB string comparisons in the
source do.  JavaScript `x || d` defaulting is modelled explicitly (`jsOrZero`,
`jsOrString`, `jsOrQ`): a value of `0` / empty string / absent field falls back
to the default, as in the source.
-/

namespace SpendSight

/-- A category document: `{name, color}` fields of `CategoryModel` used by
`getExpenseStats` (storage.ts lines 342-348). -/
structure Category where
  name : String
  color : String
deriving DecidableEq, Repr

/-- An expense document as stored by `ExpenseModel`: `userId`, optional
`categoryId`, numeric `amount` (stored via `parseFloat`), `date` string. -/
structure StoredExpense where
  userId : String
  categoryId : Option String
  amount : ℚ
  date : String
deriving DecidableEq, Repr

/-- The `$match` stage shared by all three aggregations in `getExpenseStats`
(storage.ts lines 302-307): `userId` equality and `date: {$gte: startDate,
$lte: endDate}` — MongoDB compares the date strings lexicographically. -/
def matchedExpenses (es : List StoredExpense) (userId startDate endDate : String) :
    List StoredExpense :=
  es.filter (fun e => e.userId = userId ∧ startDate ≤ e.date ∧ e.date ≤ endDate)

/-- One step of a `$group`/`$sum` accumulation (also of the JS
`reduce((acc, exp) => acc[k] = (acc[k] || 0) + v)` pattern in openai.ts):
add `v` to the entry keyed `k`, appending a fresh entry if the key is new. -/
def bump {K : Type} [DecidableEq K] (k : K) (v : ℚ) : List (K × ℚ) → List (K × ℚ)
  | [] => [(k, v)]
  | (k2, v2) :: rest =>
      if k = k2 then (k2, v2 + v) :: rest else (k2, v2) :: bump k v rest

/-- `$group: {_id: key, amount: {$sum: val}}` / JS `reduce` grouping: sum `val`
over `xs` grouped by `key`, keys in first-occurrence order. -/
def groupSum {α K : Type} [DecidableEq K] (key : α → K) (val : α → ℚ)
    (xs : List α) : List (K × ℚ) :=
  xs.foldl (fun acc x => bump (key x) (val x) acc) []

/-- Value stored for key `k` in a grouped record, `0` when absent — the JS
read `record[k] || 0`. -/
def getQ {K : Type} [DecidableEq K] : List (K × ℚ) → K → ℚ
  | [], _ => 0
  | (k2, v) :: rest, k => if k = k2 then v else getQ rest k

/-- JavaScript `x || 0` on an optional number: absent or zero gives `0`. -/
def jsOrZero : Option ℚ → ℚ
  | none => 0
  | some x => if x = 0 then 0 else x

/-- `getExpenseStats` total aggregation result (storage.ts lines 301-314):
`$group: {_id: null, total: {$sum: "$amount"}}` yields no document on an empty
match and one document holding the sum otherwise. -/
def totalResult (es : List StoredExpense) (userId startDate endDate : String) :
    Option ℚ :=
  let m := matchedExpenses es userId startDate endDate
  if m.isEmpty then none else some ((m.map (·.amount)).sum)

/-- `totalSpent = totalResult[0]?.total || 0` (storage.ts line 316). -/
def totalSpent (es : List StoredExpense) (userId startDate endDate : String) : ℚ :=
  jsOrZero (totalResult es userId startDate endDate)

/-- The category aggregation (storage.ts lines 319-335): group the matched
expenses by `categoryId`, sum amounts, `$sort: {amount: -1}` (stable sort,
descending by amount). -/
def categoryGroups (es : List StoredExpense) (userId startDate endDate : String) :
    List (Option String × ℚ) :=
  List.insertionSort (fun a b => b.2 ≤ a.2)
    (groupSum (·.categoryId) (·.amount) (matchedExpenses es userId startDate endDate))

/-- One entry of the reported category breakdown. -/
structure BreakdownEntry where
  categoryName : String
  amount : ℚ
  color : String
deriving DecidableEq, Repr

/-- The per-group lookup loop of storage.ts lines 337-355: defaults
`'Uncategorized'` / `'#6b7280'`, overridden only when `item._id` is truthy
(non-null, non-empty) and `CategoryModel.findById` finds the category. -/
def mkBreakdownEntry (cats : String → Option Category) :
    Option String × ℚ → BreakdownEntry
  | (none, amt) => ⟨"Uncategorized", amt, "#6b7280"⟩
  | (some cid, amt) =>
      if cid = "" then ⟨"Uncategorized", amt, "#6b7280"⟩
      else
        match cats cid with
        | some c => ⟨c.name, amt, c.color⟩
        | none => ⟨"Uncategorized", amt, "#6b7280"⟩

/-- `categoryBreakdown` as returned by `getExpenseStats`. -/
def categoryBreakdown (es : List StoredExpense) (userId startDate endDate : String)
    (cats : String → Option Category) : List BreakdownEntry :=
  (categoryGroups es userId startDate endDate).map (mkBreakdownEntry cats)

/-- The daily aggregation (storage.ts lines 358-374): group matched expenses by
`date`, sum amounts, `$sort: {_id: 1}` (ascending by date string). -/
def dailyGroups (es : List StoredExpense) (userId startDate endDate : String) :
    List (String × ℚ) :=
  List.insertionSort (fun a b => a.1 ≤ b.1)
    (groupSum (·.date) (·.amount) (matchedExpenses es userId startDate endDate))

/-- One entry of the reported daily trend. -/
structure DailyEntry where
  date : String
  amount : ℚ
deriving DecidableEq, Repr

/-- `dailyTrend` as returned by `getExpenseStats` (storage.ts lines 376-379). -/
def dailyTrend (es : List StoredExpense) (userId startDate endDate : String) :
    List DailyEntry :=
  (dailyGroups es userId startDate endDate).map (fun p => ⟨p.1, p.2⟩)

/-! ## openai.ts: the pure analyzer inside `generateInsights` -/

/-- A formatted expense as passed to `generateInsights`
(routes.ts lines 151-163): numeric `amount`, `categoryName` (category name or
`'Uncategorized'`), `date`, `description`. -/
structure FExpense where
  amount : ℚ
  categoryName : String
  date : String
  description : String
deriving DecidableEq, Repr

/-- A formatted budget as passed to `generateInsights` (routes.ts 165-168). -/
structure FBudget where
  categoryName : String
  amount : ℚ
deriving DecidableEq, Repr

/-- `expenses.reduce((acc, exp) => acc[exp.categoryName] = (acc[...] || 0) +
exp.amount)` (openai.ts lines 92-100): per-category totals, keys in
first-occurrence order as in a JS object. -/
def categoriesRecord (expenses : List FExpense) : List (String × ℚ) :=
  groupSum (·.categoryName) (·.amount) expenses

/-- One element of `categoryTrends` (openai.ts lines 103-108). -/
structure CategoryTrend where
  category : String
  current : ℚ
  previous : ℚ
  change : ℚ
deriving DecidableEq, Repr

/-- `categoryTrends = Object.keys(currentCategories).map(...)` (openai.ts
lines 103-108): `current`/`previous` read with `|| 0` defaulting, `change`
is the percentage change guarded by `previous > 0`. -/
def categoryTrends (currentCategories previousCategories : List (String × ℚ)) :
    List CategoryTrend :=
  (currentCategories.map Prod.fst).map fun category =>
    let current := getQ currentCategories category
    let previous := getQ previousCategories category
    let change := if previous > 0 then ((current - previous) / previous) * 100 else 0
    ⟨category, current, previous, change⟩

/-- One element of `budgetAnalysis` (openai.ts lines 111-123). -/
structure BudgetAnalysis where
  category : String
  budget : ℚ
  spent : ℚ
  remaining : ℚ
  utilization : ℚ
  isOverBudget : Bool
deriving DecidableEq, Repr

/-- `budgetAnalysis = budgets.map(...)` (openai.ts lines 111-123). -/
def budgetAnalysis (currentCategories : List (String × ℚ)) (budgets : List FBudget) :
    List BudgetAnalysis :=
  budgets.map fun b =>
    let spent := getQ currentCategories b.categoryName
    let remaining := b.amount - spent
    let utilization := if b.amount > 0 then (spent / b.amount) * 100 else 0
    ⟨b.categoryName, b.amount, spent, remaining, utilization, decide (b.amount < spent)⟩

/-- One element of `savingsOpportunities` (openai.ts lines 141-146). -/
structure SavingsOpportunity where
  category : String
  increase : ℚ
  currentSpend : ℚ
  potentialSaving : ℚ
deriving DecidableEq, Repr

/-- `savingsOpportunities = categoryTrends.filter(t => t.change > 20).map(...)`
(openai.ts lines 141-146); `potentialSaving = t.current * 0.15`. -/
def savingsOpportunities (currentCategories previousCategories : List (String × ℚ)) :
    List SavingsOpportunity :=
  ((categoryTrends currentCategories previousCategories).filter
      (fun t => 20 < t.change)).map
    fun t => ⟨t.category, t.change, t.current, t.current * (15 / 100)⟩

/-! ## openai.ts: response shaping of `generateInsights` and `categorizeExpense` -/

/-- One entry of the JSON reply's `insights` array, before validation: every
field may be absent (or, via JS truthiness, empty). -/
structure RawInsight where
  type : Option String
  title : Option String
  description : Option String
  priority : Option String
deriving DecidableEq, Repr

/-- JavaScript `s || d` on an optional string: absent or empty gives `d`. -/
def jsOrString : Option String → String → String
  | none, d => d
  | some s, d => if s = "" then d else s

/-- JavaScript `x || d` on an optional number: absent or zero gives `d`. -/
def jsOrQ : Option ℚ → ℚ → ℚ
  | none, d => d
  | some x, d => if x = 0 then d else x

/-- The fixed `type` enum checked by `['alert','goal','warning','recommendation']
.includes(insight.type)` (openai.ts line 194). -/
def validTypes : List String := ["alert", "goal", "warning", "recommendation"]

/-- The fixed `priority` enum checked by `['low','medium','high'].includes`
(openai.ts line 197). -/
def validPriorities : List String := ["low", "medium", "high"]

/-- A validated insight as produced by `generateInsights`. -/
structure AIInsight where
  type : String
  title : String
  description : String
  priority : String
deriving DecidableEq, Repr

/-- The per-entry validation map of openai.ts lines 193-198: out-of-enum `type`
coerced to `'recommendation'`, out-of-enum `priority` to `'medium'`, falsy
`title`/`description` replaced by fixed fallback strings. -/
def shapeInsight (r : RawInsight) : AIInsight :=
  { type :=
      match r.type with
      | some t => if t ∈ validTypes then t else "recommendation"
      | none => "recommendation"
    title := jsOrString r.title "Financial Insight"
    description := jsOrString r.description
      "Review your spending patterns for better financial health."
    priority :=
      match r.priority with
      | some p => if p ∈ validPriorities then p else "medium"
      | none => "medium" }

/-- The canned fallback insight of the `catch` block (openai.ts lines 201-208). -/
def fallbackInsight : AIInsight :=
  { type := "recommendation"
    title := "Track Your Expenses"
    description :=
      "Continue logging your expenses to get personalized AI insights and recommendations."
    priority := "medium" }

/-- `generateInsights` result as a function of the external call's outcome:
on success the parsed entries are validated one by one (openai.ts 193-198);
when the call throws — network error, malformed JSON reply, timeout — the
`catch` block returns the single fallback insight (openai.ts 199-209). -/
def generateInsightsResult : Except Unit (List RawInsight) → List AIInsight
  | .ok entries => entries.map shapeInsight
  | .error _ => [fallbackInsight]

/-- The JSON reply of the categorization call, before defaulting: every field
may be absent or falsy. -/
structure RawCategorization where
  category : Option String
  confidence : Option ℚ
  reasoning : Option String
deriving DecidableEq, Repr

/-- `categorizeExpense`'s result record. -/
structure ExpenseCategorization where
  category : String
  confidence : ℚ
  reasoning : String
deriving DecidableEq, Repr

/-- `categorizeExpense` result as a function of the external call's outcome
(openai.ts lines 65-79): on success, `category` defaults to `'shopping'`,
`confidence` is `Math.max(0, Math.min(1, result.confidence || 0.5))`, and
`reasoning` gets a fixed default; on failure the `catch` block returns the
fixed fallback record. The free-text description and amount only shape the
prompt, never the parsed result. -/
def categorizeExpenseResult : Except Unit RawCategorization → ExpenseCategorization
  | .ok r =>
      { category := jsOrString r.category "shopping"
        confidence := max 0 (min 1 (jsOrQ r.confidence (1 / 2)))
        reasoning := jsOrString r.reasoning "AI categorization based on description" }
  | .error _ =>
      { category := "shopping"
        confidence := 1 / 10
        reasoning := "Default categorization due to AI service error" }

/-! ## storage.ts: the storage boundary (create / update / delete) -/

/-- A non-empty run of decimal digits, read as a natural number. -/
def digitsToNat : List Char → Option ℕ
  | [] => none
  | cs =>
      if cs.all (fun c => c.isDigit) then
        some (cs.foldl (fun n c => 10 * n + (c.toNat - 48)) 0)
      else none

/-- Model of JavaScript `parseFloat` restricted to the non-negative decimal
literals the expense forms produce, with exact rational semantics: an integer
part, optionally a dot and a fractional part.  Strings `parseFloat` would not
map to a plain finite decimal value are mapped to `none`. -/
def parseDecimal (s : String) : Option ℚ :=
  let cs := s.toList
  let w := cs.takeWhile (fun c => ¬ c = '.')
  match cs.dropWhile (fun c => ¬ c = '.') with
  | [] => (digitsToNat w).map (fun n => (n : ℚ))
  | _ :: f =>
      match digitsToNat w, digitsToNat f with
      | some n, some m => some ((n : ℚ) + (m : ℚ) / (10 ^ f.length))
      | _, _ => none

/-- `q` is representable with exactly two fractional digits. -/
def hasTwoDecimals (q : ℚ) : Prop := (q * 100).den = 1

instance (q : ℚ) : Decidable (hasTwoDecimals q) := by
  unfold hasTwoDecimals; infer_instance

/-- The validated insert payload for an expense (`insertExpenseSchema`):
`amount` is a string at this boundary. -/
structure InsertExpense where
  categoryId : Option String
  amount : String
  description : String
  paymentMethod : String
  date : String
deriving DecidableEq, Repr

/-- A persisted expense document, with its generated id. -/
structure ExpenseDoc where
  id : String
  userId : String
  categoryId : Option String
  amount : ℚ
  description : String
  date : String
deriving DecidableEq, Repr

/-- `MongoStorage.createExpense` (storage.ts lines 217-224): the stored
document carries `amount: parseFloat(expense.amount)` — the parsed number,
with no rounding or 2-decimal serialization.  `newId` stands for the
database-generated `_id`. -/
def createExpense (e : InsertExpense) (userId newId : String) : Option ExpenseDoc :=
  (parseDecimal e.amount).map fun a =>
    ⟨newId, userId, e.categoryId, a, e.description, e.date⟩

/-- The validated insert payload for a budget (`insertBudgetSchema`). -/
structure InsertBudget where
  categoryId : Option String
  amount : String
  period : String
  startDate : String
  endDate : String
deriving DecidableEq, Repr

/-- A persisted budget document. -/
structure BudgetDoc where
  id : String
  userId : String
  categoryId : Option String
  amount : ℚ
  period : String
  startDate : String
  endDate : String
deriving DecidableEq, Repr

/-- `MongoStorage.createBudget` (storage.ts lines 276-283): stores
`amount: parseFloat(budget.amount)`, again with no 2-decimal serialization. -/
def createBudget (b : InsertBudget) (userId newId : String) : Option BudgetDoc :=
  (parseDecimal b.amount).map fun a =>
    ⟨newId, userId, b.categoryId, a, b.period, b.startDate, b.endDate⟩

/-- Mongoose `findByIdAndUpdate(id, upd, {new: true})` over an explicit
collection state: returns the updated document when `id` exists (`none`
otherwise) together with the new collection. -/
def findByIdAndUpdate (db : List ExpenseDoc) (id : String)
    (upd : ExpenseDoc → ExpenseDoc) : Option ExpenseDoc × List ExpenseDoc :=
  match db.find? (fun e => e.id = id) with
  | none => (none, db)
  | some e => (some (upd e), db.map (fun d => if d.id = id then upd d else d))

/-- `MongoStorage.updateExpense` (storage.ts lines 226-244): when
`findByIdAndUpdate` returns no document the method throws
`'Expense not found'`; the patch itself is abstracted as the update
function `upd` applied by the database. -/
def updateExpense (db : List ExpenseDoc) (id : String)
    (upd : ExpenseDoc → ExpenseDoc) : Except String (ExpenseDoc × List ExpenseDoc) :=
  match findByIdAndUpdate db id upd with
  | (none, _) => .error "Expense not found"
  | (some e, db2) => .ok (e, db2)

/-- Mongoose `findByIdAndDelete(id)`: returns the deleted document if any,
and the collection without it. -/
def findByIdAndDelete (db : List ExpenseDoc) (id : String) :
    Option ExpenseDoc × List ExpenseDoc :=
  (db.find? (fun e => e.id = id), db.filter (fun e => ¬ e.id = id))

/-- `MongoStorage.deleteExpense` (storage.ts lines 246-248): awaits
`findByIdAndDelete` and returns without inspecting its result — it never
reports a missing id as a failure. -/
def deleteExpense (db : List ExpenseDoc) (id : String) :
    Except String (List ExpenseDoc) :=
  .ok (findByIdAndDelete db id).2

/-! ## Lemmas about the grouping fold -/

section GroupSumLemmas

variable {α K : Type} [DecidableEq K]

theorem getQ_bump (k k' : K) (v : ℚ) (l : List (K × ℚ)) :
    getQ (bump k v l) k' = getQ l k' + (if k' = k then v else 0) := by
  induction l with
  | nil => by_cases h : k' = k <;> simp [bump, getQ, h]
  | cons p rest ih =>
    obtain ⟨k2, v2⟩ := p
    by_cases hk : k = k2
    · subst hk
      by_cases h' : k' = k <;> simp [bump, getQ, h']
    · by_cases h' : k' = k2
      · subst h'
        have : ¬ k' = k := fun h => hk (h ▸ rfl)
        simp [bump, getQ, hk, this]
      · simp [bump, getQ, hk, h', ih]

theorem map_fst_bump (k : K) (v : ℚ) (l : List (K × ℚ)) :
    (bump k v l).map Prod.fst =
      if k ∈ l.map Prod.fst then l.map Prod.fst else l.map Prod.fst ++ [k] := by
  induction l with
  | nil => simp [bump]
  | cons p rest ih =>
    obtain ⟨k2, v2⟩ := p
    by_cases hk : k = k2
    · subst hk; simp [bump]
    · have : (k = k2) = False := by simp [hk]
      by_cases hmem : k ∈ rest.map Prod.fst <;>
        simp [bump, hk, ih, hmem, this]

theorem mem_map_fst_bump (k k' : K) (v : ℚ) (l : List (K × ℚ)) :
    k' ∈ (bump k v l).map Prod.fst ↔ k' ∈ l.map Prod.fst ∨ k' = k := by
  rw [map_fst_bump]
  split
  · rename_i h
    constructor
    · exact Or.inl
    · rintro (h' | rfl) <;> [exact h'; exact h]
  · simp

theorem nodup_map_fst_bump (k : K) (v : ℚ) (l : List (K × ℚ))
    (h : (l.map Prod.fst).Nodup) : ((bump k v l).map Prod.fst).Nodup := by
  rw [map_fst_bump]
  split
  · exact h
  · rename_i hk
    simp only [List.nodup_append, List.nodup_cons, List.nodup_nil]
    exact ⟨h, ⟨by simp, trivial⟩, by simpa using fun hmem => hk hmem⟩

theorem sum_map_snd_bump (k : K) (v : ℚ) (l : List (K × ℚ)) :
    ((bump k v l).map Prod.snd).sum = (l.map Prod.snd).sum + v := by
  induction l with
  | nil => simp [bump]
  | cons p rest ih =>
    obtain ⟨k2, v2⟩ := p
    by_cases hk : k = k2
    · subst hk; simp [bump]; ring
    · simp [bump, hk, ih]; ring

variable (key : α → K) (val : α → ℚ)

theorem getQ_groupSum_aux (xs : List α) (acc : List (K × ℚ)) (k : K) :
    getQ (xs.foldl (fun a x => bump (key x) (val x) a) acc) k
      = getQ acc k + ((xs.filter (fun x => key x = k)).map val).sum := by
  induction xs generalizing acc with
  | nil => simp
  | cons x xs ih =>
    rw [List.foldl_cons, ih, getQ_bump]
    by_cases h : key x = k
    · subst h
      simp [List.filter_cons]
      ring
    · have h' : ¬ k = key x := fun hh => h (hh ▸ rfl)
      simp [List.filter_cons, h, h']

theorem getQ_groupSum (xs : List α) (k : K) :
    getQ (groupSum key val xs) k = ((xs.filter (fun x => key x = k)).map val).sum := by
  have := getQ_groupSum_aux key val xs [] k
  simpa [groupSum, getQ] using this

theorem sum_map_snd_groupSum_aux (xs : List α) (acc : List (K × ℚ)) :
    (((xs.foldl (fun a x => bump (key x) (val x) a) acc)).map Prod.snd).sum
      = (acc.map Prod.snd).sum + (xs.map val).sum := by
  induction xs generalizing acc with
  | nil => simp
  | cons x xs ih =>
    rw [List.foldl_cons, ih, sum_map_snd_bump]
    simp
    ring

theorem sum_map_snd_groupSum (xs : List α) :
    ((groupSum key val xs).map Prod.snd).sum = (xs.map val).sum := by
  have := sum_map_snd_groupSum_aux key val xs []
  simpa [groupSum] using this

theorem mem_map_fst_groupSum_aux (xs : List α) (acc : List (K × ℚ)) (k : K) :
    k ∈ ((xs.foldl (fun a x => bump (key x) (val x) a) acc)).map Prod.fst
      ↔ k ∈ acc.map Prod.fst ∨ k ∈ xs.map key := by
  induction xs generalizing acc with
  | nil => simp
  | cons x xs ih =>
    rw [List.foldl_cons, ih, mem_map_fst_bump]
    simp only [List.map_cons, List.mem_cons]
    tauto

theorem mem_map_fst_groupSum (xs : List α) (k : K) :
    k ∈ (groupSum key val xs).map Prod.fst ↔ k ∈ xs.map key := by
  have := mem_map_fst_groupSum_aux key val xs [] k
  simpa [groupSum] using this

theorem nodup_map_fst_groupSum_aux (xs : List α) (acc : List (K × ℚ))
    (h : (acc.map Prod.fst).Nodup) :
    (((xs.foldl (fun a x => bump (key x) (val x) a) acc)).map Prod.fst).Nodup := by
  induction xs generalizing acc with
  | nil => exact h
  | cons x xs ih =>
    rw [List.foldl_cons]
    exact ih _ (nodup_map_fst_bump _ _ _ h)

theorem nodup_map_fst_groupSum (xs : List α) :
    ((groupSum key val xs).map Prod.fst).Nodup :=
  nodup_map_fst_groupSum_aux key val xs [] (by simp)

theorem getQ_eq_snd_of_mem {l : List (K × ℚ)} (h : (l.map Prod.fst).Nodup)
    {p : K × ℚ} (hp : p ∈ l) : getQ l p.1 = p.2 := by
  induction l with
  | nil => cases hp
  | cons q rest ih =>
    rcases List.mem_cons.mp hp with rfl | hp'
    · simp [getQ]
    · have h1 : (rest.map Prod.fst).Nodup := (List.nodup_cons.mp (by simpa using h)).2
      have hq : q.1 ∉ rest.map Prod.fst := (List.nodup_cons.mp (by simpa using h)).1
      have hne : ¬ p.1 = q.1 := by
        intro he
        exact hq (he ▸ List.mem_map_of_mem Prod.fst hp')
      obtain ⟨k2, v2⟩ := q
      simp only [getQ, hne, if_neg]
      exact ih h1 hp'

end GroupSumLemmas

/-! ## Lemmas about the aggregation pipeline -/

theorem amount_mkBreakdownEntry (cats : String → Option Category)
    (p : Option String × ℚ) : (mkBreakdownEntry cats p).amount = p.2 := by
  obtain ⟨k, v⟩ := p
  cases k with
  | none => rfl
  | some cid =>
    by_cases h : cid = ""
    · simp [mkBreakdownEntry, h]
    · cases hc : cats cid <;> simp [mkBreakdownEntry, h, hc]

theorem categoryGroups_perm (es : List StoredExpense) (uid sd ed : String) :
    (categoryGroups es uid sd ed).Perm
      (groupSum (·.categoryId) (·.amount) (matchedExpenses es uid sd ed)) :=
  List.perm_insertionSort _ _

theorem dailyGroups_perm (es : List StoredExpense) (uid sd ed : String) :
    (dailyGroups es uid sd ed).Perm
      (groupSum (·.date) (·.amount) (matchedExpenses es uid sd ed)) :=
  List.perm_insertionSort _ _

theorem totalSpent_eq_sum (es : List StoredExpense) (uid sd ed : String) :
    totalSpent es uid sd ed = ((matchedExpenses es uid sd ed).map (·.amount)).sum := by
  by_cases h : (matchedExpenses es uid sd ed).isEmpty
  · have he : matchedExpenses es uid sd ed = [] := by simpa using h
    simp [totalSpent, totalResult, jsOrZero, he]
  · simp only [totalSpent, totalResult, jsOrZero, h, if_neg, Bool.false_eq_true,
      not_false_iff]
    split <;> simp_all

/-! ## Claim C1: the category breakdown -/

/-- C1 counterexample: the claim asserts the `categoryBreakdown` list is sorted
STRICTLY descending by amount for every user and range, but `$sort: {amount: -1}`
applies no tiebreak: two categories whose expenses total the same amount yield
equal adjacent amounts, so the strictly-descending property fails on this
concrete two-expense input. -/
theorem c1_strict_descending_counterexample :
    ¬ ((categoryBreakdown
          [⟨"u", some "c1", 50, "2024-01-01"⟩, ⟨"u", some "c2", 50, "2024-01-01"⟩]
          "u" "2024-01-01" "2024-01-31"
          (fun cid =>
            if cid = "c1" then some ⟨"Food", "#ef4444"⟩
            else if cid = "c2" then some ⟨"Travel", "#84cc16"⟩ else none)).map
        (·.amount)).Chain' (· > ·) := by
  simp +decide [categoryBreakdown, categoryGroups, matchedExpenses, groupSum, bump,
    mkBreakdownEntry]

/-- C1, amended (strict descending weakened to non-increasing): for every user
and inclusive date range, the category aggregation has exactly one entry per
distinct `categoryId` present among the range's expenses (all expenses with no
category collapsing into the single entry keyed `none`, reported as
`'Uncategorized'` with the default gray color), the breakdown's amounts sum to
`totalSpent` with each expense counted exactly once, and the list is sorted in
non-increasing (weakly descending) order by amount. -/
theorem c1_categoryBreakdown_correct (es : List StoredExpense)
    (uid sd ed : String) (cats : String → Option Category) :
    ((categoryGroups es uid sd ed).map Prod.fst).Nodup
    ∧ (∀ k, k ∈ (categoryGroups es uid sd ed).map Prod.fst ↔
        k ∈ (matchedExpenses es uid sd ed).map (·.categoryId))
    ∧ (∀ p ∈ categoryGroups es uid sd ed,
        p.2 = (((matchedExpenses es uid sd ed).filter
          (fun e => e.categoryId = p.1)).map (·.amount)).sum)
    ∧ categoryBreakdown es uid sd ed cats =
        (categoryGroups es uid sd ed).map (mkBreakdownEntry cats)
    ∧ ((categoryBreakdown es uid sd ed cats).map (·.amount)).sum =
        totalSpent es uid sd ed
    ∧ ((categoryBreakdown es uid sd ed cats).map (·.amount)).Sorted (· ≥ ·)
    ∧ (∀ p ∈ categoryGroups es uid sd ed, p.1 = none →
        mkBreakdownEntry cats p = ⟨"Uncategorized", p.2, "#6b7280"⟩) := by
  have hperm := categoryGroups_perm es uid sd ed
  have hnodupG := nodup_map_fst_groupSum (α := StoredExpense)
    (·.categoryId) (·.amount) (matchedExpenses es uid sd ed)
  have hnodup : ((categoryGroups es uid sd ed).map Prod.fst).Nodup :=
    ((hperm.map Prod.fst).nodup_iff).mpr hnodupG
  have hamounts : (categoryBreakdown es uid sd ed cats).map (·.amount) =
      (categoryGroups es uid sd ed).map Prod.snd := by
    simp [categoryBreakdown, List.map_map, Function.comp_def, amount_mkBreakdownEntry]
  refine ⟨hnodup, ?_, ?_, rfl, ?_, ?_, ?_⟩
  · intro k
    rw [(hperm.map Prod.fst).mem_iff]
    exact mem_map_fst_groupSum _ _ _ k
  · intro p hp
    have hpG := hperm.mem_iff.mp hp
    have := getQ_eq_snd_of_mem hnodupG hpG
    rw [← this, getQ_groupSum]
  · rw [hamounts, (hperm.map Prod.snd).sum_eq, sum_map_snd_groupSum,
      totalSpent_eq_sum]
  · rw [hamounts]
    haveI : IsTotal (Option String × ℚ) (fun a b => b.2 ≤ a.2) :=
      ⟨fun a b => le_total b.2 a.2⟩
    haveI : IsTrans (Option String × ℚ) (fun a b => b.2 ≤ a.2) :=
      ⟨fun _ _ _ h1 h2 => le_trans h2 h1⟩
    have hs := List.sorted_insertionSort (fun a b : Option String × ℚ => b.2 ≤ a.2)
      (groupSum (·.categoryId) (·.amount) (matchedExpenses es uid sd ed))
    exact hs.map Prod.snd (fun _ _ h => h)
  · rintro ⟨k, v⟩ _ rfl
    rfl

/-- Witness for C1: the spec's own scenario (two Food expenses of 100 and 50,
one uncategorized expense of 30) instantiates the amended theorem; the Food
group's amount is the sum of the two Food expenses. -/
theorem c1_categoryBreakdown_correct_witness :
    (some "c1", (150 : ℚ)) ∈ categoryGroups
        [⟨"u", some "c1", 100, "2024-01-01"⟩, ⟨"u", some "c1", 50, "2024-01-02"⟩,
         ⟨"u", none, 30, "2024-01-01"⟩] "u" "2024-01-01" "2024-01-02"
    ∧ (150 : ℚ) = (((matchedExpenses
        [⟨"u", some "c1", 100, "2024-01-01"⟩, ⟨"u", some "c1", 50, "2024-01-02"⟩,
         ⟨"u", none, 30, "2024-01-01"⟩] "u" "2024-01-01" "2024-01-02").filter
          (fun e => e.categoryId = some "c1")).map (·.amount)).sum := by
  have hmem : ((some "c1", (150 : ℚ)) : Option String × ℚ) ∈ categoryGroups
      [⟨"u", some "c1", 100, "2024-01-01"⟩, ⟨"u", some "c1", 50, "2024-01-02"⟩,
       ⟨"u", none, 30, "2024-01-01"⟩] "u" "2024-01-01" "2024-01-02" := by
    simp +decide [categoryGroups, matchedExpenses, groupSum, bump]
    norm_num
  refine ⟨hmem, ?_⟩
  exact (c1_categoryBreakdown_correct
    [⟨"u", some "c1", 100, "2024-01-01"⟩, ⟨"u", some "c1", 50, "2024-01-02"⟩,
     ⟨"u", none, 30, "2024-01-01"⟩] "u" "2024-01-01" "2024-01-02"
    (fun _ => none)).2.2.1 _ hmem

/-! ## Claim C2: the daily trend -/

/-- C2: for every user and inclusive date range, `dailyTrend` has exactly one
entry per distinct expense date in the range, is sorted strictly ascending by
date, each entry's amount is the sum of that day's expenses, and the entries'
amounts sum to `totalSpent`; when no expenses fall in the range,
`getExpenseStats` returns `totalSpent = 0` and empty `categoryBreakdown` and
`dailyTrend` lists rather than an error. -/
theorem c2_dailyTrend_correct (es : List StoredExpense)
    (uid sd ed : String) (cats : String → Option Category) :
    ((dailyTrend es uid sd ed).map (·.date)).Nodup
    ∧ (∀ d, d ∈ (dailyTrend es uid sd ed).map (·.date) ↔
        d ∈ (matchedExpenses es uid sd ed).map (·.date))
    ∧ (∀ p ∈ dailyTrend es uid sd ed,
        p.amount = (((matchedExpenses es uid sd ed).filter
          (fun e => e.date = p.date)).map (·.amount)).sum)
    ∧ ((dailyTrend es uid sd ed).map (·.amount)).sum = totalSpent es uid sd ed
    ∧ ((dailyTrend es uid sd ed).map (·.date)).Pairwise (· < ·)
    ∧ (matchedExpenses es uid sd ed = [] →
        totalSpent es uid sd ed = 0
        ∧ categoryBreakdown es uid sd ed cats = []
        ∧ dailyTrend es uid sd ed = []) := by
  have hperm := dailyGroups_perm es uid sd ed
  have hnodupG := nodup_map_fst_groupSum (α := StoredExpense)
    (·.date) (·.amount) (matchedExpenses es uid sd ed)
  have hdates : (dailyTrend es uid sd ed).map (·.date) =
      (dailyGroups es uid sd ed).map Prod.fst := by
    simp [dailyTrend, List.map_map, Function.comp_def]
  have hamounts : (dailyTrend es uid sd ed).map (·.amount) =
      (dailyGroups es uid sd ed).map Prod.snd := by
    simp [dailyTrend, List.map_map, Function.comp_def]
  have hnodup : ((dailyTrend es uid sd ed).map (·.date)).Nodup := by
    rw [hdates]
    exact ((hperm.map Prod.fst).nodup_iff).mpr hnodupG
  refine ⟨hnodup, ?_, ?_, ?_, ?_, ?_⟩
  · intro d
    rw [hdates, (hperm.map Prod.fst).mem_iff]
    exact mem_map_fst_groupSum _ _ _ d
  · intro p hp
    obtain ⟨q, hq, rfl⟩ := List.mem_map.mp hp
    have hqG := hperm.mem_iff.mp hq
    have := getQ_eq_snd_of_mem hnodupG hqG
    show q.2 = _
    rw [← this, getQ_groupSum]
  · rw [hamounts, (hperm.map Prod.snd).sum_eq, sum_map_snd_groupSum,
      totalSpent_eq_sum]
  · rw [hdates]
    haveI : IsTotal (String × ℚ) (fun a b => a.1 ≤ b.1) :=
      ⟨fun a b => le_total a.1 b.1⟩
    haveI : IsTrans (String × ℚ) (fun a b => a.1 ≤ b.1) :=
      ⟨fun _ _ _ h1 h2 => le_trans h1 h2⟩
    have hs := List.sorted_insertionSort (fun a b : String × ℚ => a.1 ≤ b.1)
      (groupSum (·.date) (·.amount) (matchedExpenses es uid sd ed))
    have hle : ((dailyGroups es uid sd ed).map Prod.fst).Pairwise (· ≤ ·) :=
      hs.map Prod.fst (fun _ _ h => h)
    have hne : ((dailyGroups es uid sd ed).map Prod.fst).Pairwise (· ≠ ·) :=
      ((hperm.map Prod.fst).nodup_iff).mpr hnodupG
    exact (hle.and hne).imp (fun h => lt_of_le_of_ne h.1 h.2)
  · intro hempty
    refine ⟨?_, ?_, ?_⟩
    · rw [totalSpent_eq_sum, hempty]; rfl
    · simp [categoryBreakdown, categoryGroups, hempty, groupSum]
    · simp [dailyTrend, dailyGroups, hempty, groupSum]

/-- Witness for C2: the spec's own scenario instantiates the theorem; the
2024-01-01 entry's amount is the sum of that day's two expenses, and the empty
range 2025-01-01..2025-01-02 yields zero total and empty lists. -/
theorem c2_dailyTrend_correct_witness :
    ((⟨"2024-01-01", 130⟩ : DailyEntry) ∈ dailyTrend
        [⟨"u", some "c1", 100, "2024-01-01"⟩, ⟨"u", some "c1", 50, "2024-01-02"⟩,
         ⟨"u", none, 30, "2024-01-01"⟩] "u" "2024-01-01" "2024-01-02"
      ∧ (130 : ℚ) = (((matchedExpenses
          [⟨"u", some "c1", 100, "2024-01-01"⟩, ⟨"u", some "c1", 50, "2024-01-02"⟩,
           ⟨"u", none, 30, "2024-01-01"⟩] "u" "2024-01-01" "2024-01-02").filter
            (fun e => e.date = "2024-01-01")).map (·.amount)).sum)
    ∧ (totalSpent [⟨"u", none, 30, "2024-06-01"⟩] "u" "2025-01-01" "2025-01-02" = 0
      ∧ categoryBreakdown [⟨"u", none, 30, "2024-06-01"⟩] "u" "2025-01-01" "2025-01-02"
          (fun _ => none) = []
      ∧ dailyTrend [⟨"u", none, 30, "2024-06-01"⟩] "u" "2025-01-01" "2025-01-02" = []) := by
  constructor
  · have hmem : (⟨"2024-01-01", 130⟩ : DailyEntry) ∈ dailyTrend
        [⟨"u", some "c1", 100, "2024-01-01"⟩, ⟨"u", some "c1", 50, "2024-01-02"⟩,
         ⟨"u", none, 30, "2024-01-01"⟩] "u" "2024-01-01" "2024-01-02" := by
      simp +decide [dailyTrend, dailyGroups, matchedExpenses, groupSum, bump]
      norm_num
    refine ⟨hmem, ?_⟩
    exact (c2_dailyTrend_correct
      [⟨"u", some "c1", 100, "2024-01-01"⟩, ⟨"u", some "c1", 50, "2024-01-02"⟩,
       ⟨"u", none, 30, "2024-01-01"⟩] "u" "2024-01-01" "2024-01-02"
      (fun _ => none)).2.2.1 _ hmem
  · exact (c2_dailyTrend_correct [⟨"u", none, 30, "2024-06-01"⟩] "u"
      "2025-01-01" "2025-01-02" (fun _ => none)).2.2.2.2.2
      (by simp +decide [matchedExpenses])

/-! ## Claim C4: the trend and budget analyzer arithmetic -/

/-- C4: for every pair of aggregated period breakdowns and every budget list,
each trend entry's change is 0 when its previous-period amount is 0 and equals
(current − previous) / previous × 100 when previous is positive; each budget
entry's utilization is 0 when the budget amount is 0 and equals
spent / budget × 100 when the budget amount is positive, `isOverBudget` holds
exactly when spent exceeds the budget amount (so with budget 0 it holds iff
spent is positive), and `remaining = budget − spent` (which may be negative). -/
theorem c4_analyzer_correct (cur prev : List (String × ℚ)) (budgets : List FBudget) :
    (∀ t ∈ categoryTrends cur prev,
      (t.previous = 0 → t.change = 0)
      ∧ (0 < t.previous → t.change = ((t.current - t.previous) / t.previous) * 100))
    ∧ (∀ a ∈ budgetAnalysis cur budgets,
      (a.budget = 0 → a.utilization = 0)
      ∧ (0 < a.budget → a.utilization = (a.spent / a.budget) * 100)
      ∧ (a.isOverBudget = true ↔ a.budget < a.spent)
      ∧ a.remaining = a.budget - a.spent
      ∧ (a.budget = 0 → (a.isOverBudget = true ↔ 0 < a.spent))) := by
  constructor
  · intro t ht
    obtain ⟨c, _, rfl⟩ := List.mem_map.mp ht
    dsimp only
    constructor
    · intro h0
      rw [h0]
      simp
    · intro hpos
      rw [if_pos hpos]
  · intro a ha
    obtain ⟨b, _, rfl⟩ := List.mem_map.mp ha
    dsimp only
    refine ⟨?_, ?_, ?_, rfl, ?_⟩
    · intro h0
      rw [h0]
      simp
    · intro hpos
      rw [if_pos hpos]
    · simp
    · intro h0
      rw [h0]
      simp

/-- Witness for C4: with previous = 0 and current = 100 the change is 0 (not
infinite or NaN), and with budget = 0 utilization is 0 while `isOverBudget`
holds for the positive spend 100. -/
theorem c4_analyzer_correct_witness :
    (⟨"Food", 100, 0, 0⟩ : CategoryTrend).change = 0
    ∧ (⟨"Food", 0, 100, -100, 0, true⟩ : BudgetAnalysis).utilization = 0
    ∧ (⟨"Food", 0, 100, -100, 0, true⟩ : BudgetAnalysis).isOverBudget = true := by
  have hmem : (⟨"Food", 100, 0, 0⟩ : CategoryTrend) ∈
      categoryTrends [("Food", (100 : ℚ))] [] := by
    simp [categoryTrends, getQ]
  have hb : (⟨"Food", 0, 100, -100, 0, true⟩ : BudgetAnalysis) ∈
      budgetAnalysis [("Food", (100 : ℚ))] [⟨"Food", 0⟩] := by
    simp [budgetAnalysis, getQ]
  have h1 := ((c4_analyzer_correct [("Food", (100 : ℚ))] [] [⟨"Food", 0⟩]).1 _ hmem).1 rfl
  have h2 := (c4_analyzer_correct [("Food", (100 : ℚ))] [] [⟨"Food", 0⟩]).2 _ hb
  exact ⟨h1, h2.1 rfl, (h2.2.2.2.2 rfl).mpr (by norm_num)⟩

/-! ## Claims C5 and C6: insight validation and the failure fallback -/

/-- C5: every insight returned by `generateInsights` has a type in the fixed
set and a priority in the fixed set; per parsed entry, an out-of-enum type is
coerced to `'recommendation'`, an out-of-enum priority to `'medium'`, and a
missing title or description is replaced by a fixed fallback string, rather
than the entry being rejected. -/
theorem c5_insights_validated (res : Except Unit (List RawInsight)) :
    (∀ i ∈ generateInsightsResult res, i.type ∈ validTypes ∧ i.priority ∈ validPriorities)
    ∧ (∀ entries : List RawInsight,
        generateInsightsResult (.ok entries) = entries.map shapeInsight)
    ∧ (∀ r : RawInsight,
        (∀ t, r.type = some t → t ∉ validTypes → (shapeInsight r).type = "recommendation")
        ∧ (r.type = none → (shapeInsight r).type = "recommendation")
        ∧ (∀ p, r.priority = some p → p ∉ validPriorities →
            (shapeInsight r).priority = "medium")
        ∧ (r.priority = none → (shapeInsight r).priority = "medium")
        ∧ (r.title = none → (shapeInsight r).title = "Financial Insight")
        ∧ (r.description = none → (shapeInsight r).description =
            "Review your spending patterns for better financial health.")) := by
  refine ⟨?_, fun _ => rfl, ?_⟩
  · intro i hi
    cases res with
    | error e =>
        simp only [generateInsightsResult, List.mem_singleton] at hi
        subst hi
        constructor <;> simp [fallbackInsight, validTypes, validPriorities]
    | ok entries =>
        simp only [generateInsightsResult, List.mem_map] at hi
        obtain ⟨r, _, rfl⟩ := hi
        constructor
        · cases hty : r.type with
          | none => simp [shapeInsight, hty, validTypes]
          | some t =>
              simp only [shapeInsight, hty]
              by_cases hmem : t ∈ validTypes
              · rw [if_pos hmem]; exact hmem
              · rw [if_neg hmem]; simp [validTypes]
        · cases hpr : r.priority with
          | none => simp [shapeInsight, hpr, validPriorities]
          | some p =>
              simp only [shapeInsight, hpr]
              by_cases hmem : p ∈ validPriorities
              · rw [if_pos hmem]; exact hmem
              · rw [if_neg hmem]; simp [validPriorities]
  · intro r
    refine ⟨?_, ?_, ?_, ?_, ?_, ?_⟩
    · intro t ht hmem
      simp [shapeInsight, ht, hmem]
    · intro ht
      simp [shapeInsight, ht]
    · intro p hp hmem
      simp [shapeInsight, hp, hmem]
    · intro hp
      simp [shapeInsight, hp]
    · intro ht
      simp [shapeInsight, ht, jsOrString]
    · intro hd
      simp [shapeInsight, hd, jsOrString]

/-- Witness for C5: a reply entry with out-of-enum type `'urgent'`, out-of-enum
priority `'critical'` and no title is coerced — not rejected — to a
recommendation of medium priority with the fallback title. -/
theorem c5_insights_validated_witness :
    (shapeInsight ⟨some "urgent", none, some "d", some "critical"⟩).type = "recommendation"
    ∧ (shapeInsight ⟨some "urgent", none, some "d", some "critical"⟩).priority = "medium"
    ∧ (shapeInsight ⟨some "urgent", none, some "d", some "critical"⟩).title = "Financial Insight"
    ∧ (shapeInsight ⟨some "urgent", none, some "d", some "critical"⟩).type ∈ validTypes := by
  have h := (c5_insights_validated (.ok [⟨some "urgent", none, some "d", some "critical"⟩])).2.2
    ⟨some "urgent", none, some "d", some "critical"⟩
  have hall := (c5_insights_validated (.ok [⟨some "urgent", none, some "d", some "critical"⟩])).1
    (shapeInsight ⟨some "urgent", none, some "d", some "critical"⟩)
    (by simp [generateInsightsResult])
  exact ⟨h.1 "urgent" rfl (by simp [validTypes]),
    h.2.2.1 "critical" rfl (by simp [validPriorities]),
    h.2.2.2.2.1 rfl, hall.1⟩

/-- C6: whenever the external call inside `generateInsights` fails (the `try`
block throws: network error, malformed reply, timeout), the result is exactly
one canned fallback insight with title `'Track Your Expenses'`, type
`'recommendation'` and priority `'medium'`, instead of a propagated failure. -/
theorem c6_failure_fallback :
    (∀ e : Unit, generateInsightsResult (.error e) = [fallbackInsight])
    ∧ fallbackInsight.title = "Track Your Expenses"
    ∧ fallbackInsight.type = "recommendation"
    ∧ fallbackInsight.priority = "medium" :=
  ⟨fun _ => rfl, rfl, rfl, rfl⟩

/-- C7: for every outcome of the external call, `categorizeExpense` returns a
confidence clamped to the interval from 0 to 1; and on failure it returns
exactly category `'shopping'`, confidence 0.1, and the fixed reasoning string
noting the fallback. The description and amount only shape the prompt, so the
result is a function of the call's outcome alone. -/
theorem c7_categorize_clamped :
    (∀ res : Except Unit RawCategorization,
      0 ≤ (categorizeExpenseResult res).confidence
      ∧ (categorizeExpenseResult res).confidence ≤ 1)
    ∧ categorizeExpenseResult (.error ()) =
        ⟨"shopping", 1 / 10, "Default categorization due to AI service error"⟩ := by
  refine ⟨?_, rfl⟩
  intro res
  cases res with
  | error e => constructor <;> norm_num [categorizeExpenseResult]
  | ok r =>
      constructor
      · exact le_max_left 0 _
      · exact max_le (by norm_num) (min_le_left 1 _)

/-! ## Claim C10: trends are computed only for current-period categories -/

/-- C10: `generateInsights` computes a trend entry only for categories among
the current period's expenses (the keys of `currentCategories`); a category
absent from the current period's expenses gets no trend entry even if it had
previous-period spending, and every savings opportunity comes from a
current-period trend entry with change above 20. -/
theorem c10_trends_current_only (cur prev : List FExpense) :
    (∀ t ∈ categoryTrends (categoriesRecord cur) (categoriesRecord prev),
        t.category ∈ cur.map (·.categoryName))
    ∧ (∀ c, c ∉ cur.map (·.categoryName) →
        ∀ t ∈ categoryTrends (categoriesRecord cur) (categoriesRecord prev),
          ¬ t.category = c)
    ∧ (∀ s ∈ savingsOpportunities (categoriesRecord cur) (categoriesRecord prev),
        s.category ∈ cur.map (·.categoryName)
        ∧ ∃ t ∈ categoryTrends (categoriesRecord cur) (categoriesRecord prev),
            t.category = s.category ∧ 20 < t.change
            ∧ s.currentSpend = t.current
            ∧ s.potentialSaving = t.current * (15 / 100)) := by
  have hkey : ∀ t ∈ categoryTrends (categoriesRecord cur) (categoriesRecord prev),
      t.category ∈ cur.map (·.categoryName) := by
    intro t ht
    obtain ⟨c, hc, rfl⟩ := List.mem_map.mp ht
    have : c ∈ (groupSum (·.categoryName) (·.amount) cur).map Prod.fst := hc
    rw [mem_map_fst_groupSum] at this
    exact this
  refine ⟨hkey, ?_, ?_⟩
  · intro c hc t ht he
    exact hc (he ▸ hkey t ht)
  · intro s hs
    simp only [savingsOpportunities, List.mem_map, List.mem_filter] at hs
    obtain ⟨t, ⟨htmem, hchange⟩, rfl⟩ := hs
    refine ⟨hkey t htmem, t, htmem, rfl, by simpa using hchange, rfl, rfl⟩

/-- Witness for C10: with previous-period spending only on Travel and current
spending only on Food (up from 10 to 100), the single trend entry is for Food;
Travel's decrease to zero gets no entry, and the savings opportunity produced
by the 900 percent Food increase is a current-period category. -/
theorem c10_trends_current_only_witness :
    ("Travel" ∉ ([⟨100, "Food", "2024-02-01", "groceries"⟩] : List FExpense).map
        (·.categoryName))
    ∧ (∀ t ∈ categoryTrends
          (categoriesRecord [⟨100, "Food", "2024-02-01", "groceries"⟩])
          (categoriesRecord [⟨10, "Food", "2024-01-05", "snack"⟩,
            ⟨80, "Travel", "2024-01-09", "train"⟩]),
        ¬ t.category = "Travel")
    ∧ (∀ s ∈ savingsOpportunities
          (categoriesRecord [⟨100, "Food", "2024-02-01", "groceries"⟩])
          (categoriesRecord [⟨10, "Food", "2024-01-05", "snack"⟩,
            ⟨80, "Travel", "2024-01-09", "train"⟩]),
        s.category ∈ ([⟨100, "Food", "2024-02-01", "groceries"⟩] : List FExpense).map
          (·.categoryName)) := by
  have hnot : "Travel" ∉ ([⟨100, "Food", "2024-02-01", "groceries"⟩] : List FExpense).map
      (·.categoryName) := by simp
  have h := c10_trends_current_only
    [⟨100, "Food", "2024-02-01", "groceries"⟩]
    [⟨10, "Food", "2024-01-05", "snack"⟩, ⟨80, "Travel", "2024-01-09", "train"⟩]
  exact ⟨hnot, h.2.1 "Travel" hnot, fun s hs => (h.2.2 s hs).1⟩

/-! ## Claim C8: amounts at the storage boundary -/

/-- Number of fractional digits of a decimal literal: the length of what
follows the first dot, `0` when there is no dot. -/
def fracLen (s : String) : ℕ :=
  match s.toList.dropWhile (fun c => ¬ c = '.') with
  | [] => 0
  | _ :: f => f.length

theorem hasTwoDecimals_iff (q : ℚ) :
    hasTwoDecimals q ↔ ∃ n : ℤ, q * 100 = (n : ℚ) := by
  unfold hasTwoDecimals
  constructor
  · intro h
    exact ⟨(q * 100).num, ((Rat.den_eq_one_iff _).mp h).symm⟩
  · rintro ⟨n, hn⟩
    rw [hn]
    exact Rat.den_intCast n

/-- C8 counterexample: `createExpense` performs no 2-decimal serialization —
the submitted amount string `"12.345"` is stored as the exact parsed number
12.345, which is not representable with two fractional digits, refuting the
claim that every persisted amount crosses the boundary as a 2-decimal value. -/
theorem c8_two_decimals_counterexample :
    createExpense ⟨none, "12.345", "lunch", "cash", "2024-01-01"⟩ "u" "e1" =
      some ⟨"e1", "u", none, 2469 / 200, "lunch", "2024-01-01"⟩
    ∧ ¬ hasTwoDecimals (2469 / 200) := by
  have hp : parseDecimal "12.345" = some (2469 / 200) := by
    simp +decide [parseDecimal, digitsToNat]
    norm_num
  constructor
  · simp [createExpense, hp]
  · rw [hasTwoDecimals_iff]
    rintro ⟨n, hn⟩
    have h2 : (2469 : ℚ) / 2 = (n : ℚ) := by
      norm_num at hn
      linarith
    have h3 : (2469 : ℚ) = (n : ℚ) * 2 := by
      have := congrArg (· * (2 : ℚ)) h2
      simpa using this
    have h4 : (2469 : ℤ) = n * 2 := by exact_mod_cast h3
    omega

/-- C8, amended: the amount crossing the storage boundary in `createExpense`
and `createBudget` is the number obtained by parsing the submitted string
(`parseFloat`), stored without rounding or 2-decimal serialization; whenever
the submitted string itself has at most two fractional digits, the stored
amount is representable with two fractional digits. -/
theorem c8_amount_parsed_unrounded :
    (∀ (e : InsertExpense) (uid nid : String) (d : ExpenseDoc),
      createExpense e uid nid = some d → parseDecimal e.amount = some d.amount)
    ∧ (∀ (b : InsertBudget) (uid nid : String) (d : BudgetDoc),
      createBudget b uid nid = some d → parseDecimal b.amount = some d.amount)
    ∧ (∀ (s : String) (q : ℚ),
      parseDecimal s = some q → fracLen s ≤ 2 → hasTwoDecimals q) := by
  have hparse : ∀ s : String, parseDecimal s =
      match s.toList.dropWhile (fun c => ¬ c = '.') with
      | [] => (digitsToNat (s.toList.takeWhile (fun c => ¬ c = '.'))).map
          (fun n => (n : ℚ))
      | _ :: f =>
          match digitsToNat (s.toList.takeWhile (fun c => ¬ c = '.')),
              digitsToNat f with
          | some n, some m => some ((n : ℚ) + (m : ℚ) / (10 ^ f.length))
          | _, _ => none := fun _ => rfl
  refine ⟨?_, ?_, ?_⟩
  · intro e uid nid d h
    cases hp : parseDecimal e.amount with
    | none => simp [createExpense, hp] at h
    | some a =>
        have hd : d = ⟨nid, uid, e.categoryId, a, e.description, e.date⟩ := by
          simpa [createExpense, hp] using h.symm
        rw [hd]
  · intro b uid nid d h
    cases hp : parseDecimal b.amount with
    | none => simp [createBudget, hp] at h
    | some a =>
        have hd : d = ⟨nid, uid, b.categoryId, a, b.period, b.startDate, b.endDate⟩ := by
          simpa [createBudget, hp] using h.symm
        rw [hd]
  · intro s q hq hfl
    rw [hasTwoDecimals_iff]
    rw [hparse s] at hq
    unfold fracLen at hfl
    cases hdrop : s.toList.dropWhile (fun c => ¬ c = '.') with
    | nil =>
        rw [hdrop] at hq
        cases hw : digitsToNat (s.toList.takeWhile (fun c => ¬ c = '.')) with
        | none => rw [hw] at hq; simp at hq
        | some n =>
            rw [hw] at hq
            have hqn : q = (n : ℚ) := by simpa using hq.symm
            refine ⟨(n : ℤ) * 100, ?_⟩
            rw [hqn]
            push_cast
            ring
    | cons c f =>
        rw [hdrop] at hq hfl
        have hfl2 : f.length ≤ 2 := by simpa using hfl
        have hq2 : (match digitsToNat (s.toList.takeWhile (fun c => ¬ c = '.')),
            digitsToNat f with
          | some n, some m => some ((n : ℚ) + (m : ℚ) / (10 ^ f.length))
          | _, _ => none) = some q := hq
        cases hw : digitsToNat (s.toList.takeWhile (fun c => ¬ c = '.')) with
        | none =>
            rw [hw] at hq2
            cases hm : digitsToNat f <;> rw [hm] at hq2 <;> exact Option.noConfusion hq2
        | some n =>
            cases hm : digitsToNat f with
            | none =>
                rw [hw, hm] at hq2
                exact Option.noConfusion hq2
            | some m =>
                rw [hw, hm] at hq2
                have hqv : q = (n : ℚ) + (m : ℚ) / (10 ^ f.length) :=
                  (Option.some.inj hq2).symm
                refine ⟨(n : ℤ) * 100 + (m : ℤ) * 10 ^ (2 - f.length), ?_⟩
                rw [hqv]
                have hlen : f.length + (2 - f.length) = 2 := by omega
                have hpow : (10 : ℚ) ^ f.length * 10 ^ (2 - f.length) = 100 := by
                  rw [← pow_add, hlen]
                  norm_num
                have hne : (10 : ℚ) ^ f.length ≠ 0 := by positivity
                push_cast
                field_simp
                rw [← hpow]
                ring

/-- Witness for C8 amended: the 2-decimal string `"12.50"` is stored as the
exact value 12.5, which is representable with two fractional digits. -/
theorem c8_amount_parsed_unrounded_witness :
    parseDecimal "12.50" = some (25 / 2) ∧ hasTwoDecimals (25 / 2) := by
  have hp : parseDecimal "12.50" = some (25 / 2) := by
    simp +decide [parseDecimal, digitsToNat]
    norm_num
  have h1 := c8_amount_parsed_unrounded.1
    ⟨none, "12.50", "lunch", "cash", "2024-01-01"⟩ "u" "e1"
    ⟨"e1", "u", none, 25 / 2, "lunch", "2024-01-01"⟩ (by simp [createExpense, hp])
  have h2 := c8_amount_parsed_unrounded.2.2 "12.50" (25 / 2) hp
    (by simp +decide [fracLen])
  exact ⟨h1, h2⟩

/-! ## Claim C9: update and delete on an absent id -/

/-- C9 counterexample: the claim asserts `deleteExpense` on an absent id fails,
but the method never inspects `findByIdAndDelete`'s result: deleting the
missing id `"e2"` from a store holding only `"e1"` completes successfully and
leaves the store unchanged. -/
theorem c9_delete_counterexample :
    deleteExpense [⟨"e1", "u", none, 5, "lunch", "2024-01-01"⟩] "e2" =
      Except.ok [⟨"e1", "u", none, 5, "lunch", "2024-01-01"⟩]
    ∧ (deleteExpense [⟨"e1", "u", none, 5, "lunch", "2024-01-01"⟩] "e2").isOk = true := by
  constructor
  · simp +decide [deleteExpense, findByIdAndDelete]
  · rfl

/-- C9, amended: `updateExpense` on an absent id results in the error
`'Expense not found'`, but `deleteExpense` on an absent id silently succeeds,
leaving the collection unchanged, rather than resulting in a failure. -/
theorem c9_update_fails_delete_silent (db : List ExpenseDoc) (id : String)
    (upd : ExpenseDoc → ExpenseDoc) :
    (db.find? (fun e => e.id = id) = none →
      updateExpense db id upd = Except.error "Expense not found")
    ∧ (db.find? (fun e => e.id = id) = none →
      deleteExpense db id = Except.ok db) := by
  constructor
  · intro h
    simp [updateExpense, findByIdAndUpdate, h]
  · intro h
    have hall := List.find?_eq_none.mp h
    simp only [deleteExpense, findByIdAndDelete, Except.ok.injEq]
    rw [List.filter_eq_self]
    intro e he
    simpa using hall e he

/-- Witness for C9 amended: on the empty store, updating `"e9"` errors while
deleting `"e9"` succeeds. -/
theorem c9_update_fails_delete_silent_witness :
    updateExpense [] "e9" (fun d => d) = Except.error "Expense not found"
    ∧ deleteExpense [] "e9" = Except.ok [] := by
  have h := c9_update_fails_delete_silent [] "e9" (fun d => d)
  exact ⟨h.1 rfl, h.2 rfl⟩

end SpendSight
